import Mathlib

/-!
Shallow embedding of `src/reddit_api.py` (functions
`search_reddit_for_recommendations` and `get_reddit_recommendations`).

Modelling conventions:
- Python strings are modelled as `List Char`; `str.lower()` is `Char.toLower`
  mapped over the characters; Python's `in` on strings is infix containment.
- The discussion service (praw) is external.  Its behaviour during a run is
  modelled as data: the top-level `subreddit.search` call either raises or
  returns the list of fetched posts (`ServiceResult`), and for each post the
  comment-fetch phase (`replace_more` + materialising `post.comments.list()`,
  the network-touching operations, which all occur before the filtering loop
  appends anything) either raises or returns the raw comment list, recorded in
  the post's `commentsFetch` field.
- `print` output relevant to the error contract is modelled as a returned log
  (`List (List Char)`), so the function's result is the pair
  (recommendations, printed error lines).
- CPython's `set` iteration order is unspecified; `list(set(xs))` is modelled
  by an arbitrary enumeration function `setEnum` passed as a parameter, about
  which theorems assume only that it returns a duplicate-free list with the
  same membership as its input.
-/

/-- Python strings, modelled as lists of characters. -/
abbrev Str := List Char

/-- `s.lower()`. -/
def lowerStr (s : Str) : Str := s.map Char.toLower

/-- `any(keyword in text for keyword in keywords)` — Python substring test. -/
def keyword_match (text : Str) (keywords : List Str) : Bool :=
  keywords.any fun k => decide (List.IsInfix k text)

/-- Outcome of one external service call: the call returned `a`, or raised. -/
inductive ServiceResult (ε : Type) (α : Type) where
  | ok (a : α)
  | error (e : ε)
deriving DecidableEq, Repr

/-- A raw comment as returned by the discussion service
(`comment.body`, `comment.score`, `comment.author`, `None` author possible). -/
structure RawComment where
  body : Str
  score : Int
  author : Option Str
deriving DecidableEq, Repr

/-- A raw post as returned by `subreddit.search`, together with the behaviour
of the comment-fetch phase for this post (`post.comments.replace_more` and
`post.comments.list()`): either the fetched comments or a raised exception. -/
structure RawPost where
  title : Str
  selftext : Str
  score : Int
  permalink : Str
  commentsFetch : ServiceResult Unit (List RawComment)
deriving DecidableEq, Repr

/-- The comment dictionary appended to `post_data['comments']`. -/
structure CommentData where
  body : Str
  score : Int
  author : Str
deriving DecidableEq, Repr

/-- The `post_data` dictionary built for a retained post. -/
structure PostData where
  title : Str
  body : Str
  score : Int
  url : Str
  comments : List CommentData
deriving DecidableEq, Repr

/-- The post-intent lexicon of line 62 of `reddit_api.py`. -/
def post_keywords : List Str :=
  ["recommend".toList, "similar".toList, "if you like".toList,
   "check out".toList, "you might like".toList, "fans of".toList]

/-- The comment-intent lexicon of line 76 of `reddit_api.py`. -/
def comment_keywords : List Str :=
  ["recommend".toList, "similar".toList, "if you like".toList,
   "check out".toList, "you might like".toList, "try".toList]

/-- The stand-alone lexicon of line 85: `['recommend', 'similar']`. -/
def strong_keywords : List Str := ["recommend".toList, "similar".toList]

/-- `text = f"{post.title} {post.selftext}".lower()` (line 60). -/
def post_text (p : RawPost) : Str :=
  lowerStr (p.title ++ ' ' :: p.selftext)

/-- The comment filter of lines 74–76: examine the first `max_comments`
fetched comments and keep those whose lowered body matches the
comment-intent lexicon. -/
def qualifying_comments (comments : List RawComment) (max_comments : Nat) :
    List RawComment :=
  (comments.take max_comments).filter fun c =>
    keyword_match (lowerStr c.body) comment_keywords

/-- The comment dictionary of lines 77–81 (`'[deleted]'` for a `None` author). -/
def comment_data (c : RawComment) : CommentData :=
  { body := c.body, score := c.score,
    author := c.author.getD "[deleted]".toList }

/-- Lines 71–83: the `try`/`except` around the comment phase.  A raised
exception is swallowed (`pass`) and, since every network operation of the
phase precedes the first append, leaves `post_data['comments']` empty. -/
def post_comments (p : RawPost) (max_comments : Nat) : List CommentData :=
  match p.commentsFetch with
  | .error _ => []
  | .ok cs => (qualifying_comments cs max_comments).map comment_data

/-- Lines 58–86, the body of the search loop for one post: `some post_data`
when the post is appended to `recommendations`, `none` when it is skipped. -/
def process_post (max_comments : Nat) (p : RawPost) : Option PostData :=
  let text := post_text p
  if keyword_match text post_keywords then
    let cs := post_comments p max_comments
    if !cs.isEmpty || keyword_match text strong_keywords then
      some { title := p.title, body := p.selftext, score := p.score,
             url := "https://reddit.com".toList ++ p.permalink,
             comments := cs }
    else none
  else none

/-- The line printed by the `except` branch at line 89. -/
def search_error_message (e : Str) : Str :=
  "   Error searching Reddit: ".toList ++ e

/-- `search_reddit_for_recommendations` (lines 36–91), for one query.
`search_results` is the behaviour of the top-level `subreddit.search` call;
the function returns the `recommendations` list it builds by appending, and
the error lines it prints. -/
def search_reddit_for_recommendations
    (search_results : ServiceResult Str (List RawPost)) (max_comments : Nat) :
    List PostData × List Str :=
  match search_results with
  | .error e => ([], [search_error_message e])
  | .ok posts =>
    (posts.foldl (fun acc p =>
        match process_post max_comments p with
        | some d => acc ++ [d]
        | none => acc) [],
     [])

/-- A track dictionary from the catalog stage, restricted to the fields
`get_reddit_recommendations` reads: `popularity`, `name`, `artist_names`
(the pre-joined display string) and `artists` (the list of artist names). -/
structure Track where
  name : Str
  artist_names : Str
  artists : List Str
  popularity : Int
deriving DecidableEq, Repr

/-- One insertion step of a stable descending sort on `popularity`:
the inserted element goes before the first strictly-less-popular element,
hence after every earlier element of equal popularity. -/
def insert_desc (x : Track) : List Track → List Track
  | [] => [x]
  | y :: ys =>
    if x.popularity ≥ y.popularity then x :: y :: ys
    else y :: insert_desc x ys

/-- `sorted(tracks_data, key=lambda x: x['popularity'], reverse=True)`
(line 117).  Python's `sorted` is stable also under `reverse=True`; a stable
descending sort is extensionally unique, so insertion sort is a faithful
model of Timsort here. -/
def sorted_desc_by_popularity : List Track → List Track
  | [] => []
  | x :: xs => insert_desc x (sorted_desc_by_popularity xs)

/-- Line 117: `top_tracks = sorted(...)[:num_top_tracks]`. -/
def top_tracks_of (tracks_data : List Track) (num_top_tracks : Nat) :
    List Track :=
  (sorted_desc_by_popularity tracks_data).take num_top_tracks

/-- The list comprehension of line 118:
`[artist for track in tracks_data for artist in track['artists']]`. -/
def all_artist_occurrences (tracks_data : List Track) : List Str :=
  (tracks_data.map Track.artists).flatten

/-- Line 118: `all_artists = list(set([...]))[:num_top_artists]`, with the
unspecified `set` iteration order abstracted as `setEnum`. -/
def all_artists_of (setEnum : List Str → List Str)
    (tracks_data : List Track) (num_top_artists : Nat) : List Str :=
  (setEnum (all_artist_occurrences tracks_data)).take num_top_artists

/-- A `setEnum` argument faithfully models `list(set(l))` iff it returns a
duplicate-free list with exactly the members of `l`. -/
def models_pyset (setEnum : List Str → List Str) (l : List Str) : Prop :=
  (setEnum l).Nodup ∧ ∀ a, a ∈ setEnum l ↔ a ∈ l

/-- Line 128: `query = f"{track['name']} {track['artist_names']} recommend"`. -/
def track_query (t : Track) : Str :=
  t.name ++ ' ' :: t.artist_names ++ " recommend".toList

/-- Line 140: `query = f"{artist} recommend similar"`. -/
def artist_query (a : Str) : Str :=
  a ++ " recommend similar".toList

/-- The result dictionary of `get_reddit_recommendations` (lines 152–156). -/
structure RedditRecommendations where
  all_reddit_data : List PostData
  top_tracks : List Track
  all_artists : List Str
deriving DecidableEq, Repr

/-- One iteration of the query loops (lines 129–132 and 141–144): run the
per-query search and extend `all_reddit_data` only when results are
non-empty. -/
def extend_step (oracle : Str → ServiceResult Str (List RawPost))
    (max_comments : Nat) (acc : List PostData) (q : Str) : List PostData :=
  let results := (search_reddit_for_recommendations (oracle q) max_comments).fst
  if results.isEmpty then acc else acc ++ results

/-- `get_reddit_recommendations` (lines 94–156).  `oracle` gives the
behaviour of the top-level search call for each query string (the subreddit
and per-query limits are fixed across the run), `setEnum` the `set`
iteration order. -/
def get_reddit_recommendations
    (oracle : Str → ServiceResult Str (List RawPost))
    (setEnum : List Str → List Str) (tracks_data : List Track)
    (max_comments num_top_tracks num_top_artists : Nat) :
    RedditRecommendations :=
  let top_tracks := top_tracks_of tracks_data num_top_tracks
  let all_artists := all_artists_of setEnum tracks_data num_top_artists
  let after_tracks := top_tracks.foldl
    (fun acc t => extend_step oracle max_comments acc (track_query t)) []
  let after_artists := all_artists.foldl
    (fun acc a => extend_step oracle max_comments acc (artist_query a))
    after_tracks
  { all_reddit_data := after_artists, top_tracks := top_tracks,
    all_artists := all_artists }

/-! ### Concrete fixtures used by witnesses and counterexamples -/

/-- A post whose title matches "recommend" and whose comment fetch returns
no comments. -/
def ex_rec_post : RawPost :=
  { title := "Recommend me songs".toList, selftext := "".toList, score := 10,
    permalink := "/r/music/1".toList, commentsFetch := .ok [] }

/-- A post whose title and body contain no post-intent lexicon term. -/
def ex_offtopic_post : RawPost :=
  { title := "Daily discussion thread".toList, selftext := "hello".toList,
    score := 1, permalink := "/r/music/2".toList, commentsFetch := .ok [] }

/-- A comment matching the comment-intent lexicon (contains "try"). -/
def ex_comment_a : RawComment :=
  { body := "Try listening to Foo".toList, score := 5,
    author := some "alice".toList }

/-- A comment matching no comment-intent lexicon term. -/
def ex_comment_b : RawComment :=
  { body := "nice".toList, score := 1, author := none }

/-- A matching post with two fetched comments. -/
def ex_commented_post : RawPost :=
  { title := "Recommend me songs".toList, selftext := "".toList, score := 10,
    permalink := "/r/music/3".toList,
    commentsFetch := .ok [ex_comment_a, ex_comment_b] }

/-- A matching post whose comment fetch raises. -/
def ex_broken_post : RawPost :=
  { title := "Recommend me songs".toList, selftext := "".toList, score := 2,
    permalink := "/r/music/4".toList, commentsFetch := .error () }

/-- A one-track playlist. -/
def ex_track : Track :=
  { name := "Song A".toList, artist_names := "Artist X".toList,
    artists := ["Artist X".toList], popularity := 50 }

/-- The playlist consisting of `ex_track` alone. -/
def ex_playlist : List Track := [ex_track]

/-- A service behaviour that raises on one artist query and otherwise
returns no posts. -/
def ex_oracle : Str → ServiceResult Str (List RawPost) := fun q =>
  if q = artist_query "Artist X".toList then .error "boom".toList
  else .ok []

/-- The recommendations returned for one query string under service
behaviour `oracle` (the `results` variable of lines 129 and 141). -/
def query_results (oracle : Str → ServiceResult Str (List RawPost))
    (m : Nat) (q : Str) : List PostData :=
  (search_reddit_for_recommendations (oracle q) m).fst

/-! ### Helper lemmas about the per-query search -/

/-- The append-accumulating search loop of lines 58–86 is `filterMap`. -/
theorem foldl_append_eq_filterMap (m : Nat) (posts : List RawPost)
    (acc : List PostData) :
    posts.foldl (fun acc p =>
        match process_post m p with
        | some d => acc ++ [d]
        | none => acc) acc
      = acc ++ posts.filterMap (process_post m) := by
  induction posts generalizing acc with
  | nil => simp
  | cons p ps ih =>
    simp only [List.foldl_cons, List.filterMap_cons]
    cases h : process_post m p with
    | none => rw [ih]
    | some d => rw [ih]; simp

/-- Closed form of the per-query search when the top-level call returns. -/
theorem search_ok_eq (posts : List RawPost) (m : Nat) :
    search_reddit_for_recommendations (.ok posts) m
      = (posts.filterMap (process_post m), []) := by
  have h := foldl_append_eq_filterMap m posts []
  simp only [List.nil_append] at h
  simp [search_reddit_for_recommendations, h]

/-- The two stand-alone keywords of line 85 are members of the post-intent
lexicon of line 62, so matching them implies being a mining candidate. -/
theorem keyword_match_mono (text : Str) :
    keyword_match text strong_keywords = true →
    keyword_match text post_keywords = true := by
  simp only [keyword_match, List.any_eq_true, decide_eq_true_eq]
  rintro ⟨k, hk, hinf⟩
  refine ⟨k, ?_, hinf⟩
  simp only [strong_keywords, List.mem_cons, List.not_mem_nil, or_false] at hk
  rcases hk with h | h <;> simp [post_keywords, h]

/-! ### Claims about the per-query search -/

/-- C10: for every behaviour of the discussion service — the top-level
search call returning any post list or raising, and every per-post comment
fetch returning or raising — `search_reddit_for_recommendations` never
propagates an exception: it always returns a plain recommendations list
(together with its printed error lines), given here in closed form. -/
theorem c10_search_always_returns_list
    (sres : ServiceResult Str (List RawPost)) (m : Nat) :
    search_reddit_for_recommendations sres m =
      match sres with
      | .error e => ([], [search_error_message e])
      | .ok posts => (posts.filterMap (process_post m), []) := by
  cases sres with
  | error e => rfl
  | ok posts => exact search_ok_eq posts m

/-- C3: a fetched post is a mining candidate iff its case-folded
title-plus-body contains a post-intent lexicon term: a post containing no
term is skipped (`process_post` yields `none`), posts containing none can be
removed from the fetched list without changing the returned list, and for a
post containing a term the outcome is exactly the line-85 promotion test. -/
theorem c3_post_lexicon_gate (m : Nat) :
    (∀ p : RawPost, keyword_match (post_text p) post_keywords = false →
        process_post m p = none) ∧
    (∀ posts : List RawPost,
        search_reddit_for_recommendations
          (.ok (posts.filter fun p => keyword_match (post_text p) post_keywords)) m
          = search_reddit_for_recommendations (.ok posts) m) ∧
    (∀ p : RawPost, keyword_match (post_text p) post_keywords = true →
        (process_post m p).isSome
          = (!(post_comments p m).isEmpty
             || keyword_match (post_text p) strong_keywords)) := by
  have hnone : ∀ p : RawPost,
      keyword_match (post_text p) post_keywords = false →
      process_post m p = none := by
    intro p hp
    simp [process_post, hp]
  refine ⟨hnone, ?_, ?_⟩
  · intro posts
    rw [search_ok_eq, search_ok_eq]
    congr 1
    induction posts with
    | nil => rfl
    | cons p ps ih =>
      by_cases hp : keyword_match (post_text p) post_keywords = true
      · simp [List.filter_cons, List.filterMap_cons, hp, ih]
      · have hp' : keyword_match (post_text p) post_keywords = false := by
          simpa using hp
        simp [List.filter_cons, List.filterMap_cons, hp', hnone p hp', ih]
  · intro p hp
    simp only [process_post, hp, if_true]
    by_cases hc : (!(post_comments p m).isEmpty
        || keyword_match (post_text p) strong_keywords) = true
    · simp [hc]
    · simp only [Bool.not_eq_true] at hc
      simp [hc]

/-- C3 witness: a post whose text contains no lexicon term is skipped. -/
theorem c3_witness : process_post 3 ex_offtopic_post = none :=
  (c3_post_lexicon_gate 3).1 ex_offtopic_post (by decide)

/-- C2: a processed post whose retained comment list is empty contributes an
entry to the returned recommendation list iff its case-folded
title-plus-body contains "recommend" or "similar"; with neither term and no
qualifying comment it is dropped. -/
theorem c2_zero_comment_retention (m : Nat) (posts : List RawPost)
    (p : RawPost) (hp : p ∈ posts) (hc : post_comments p m = []) :
    ((process_post m p).isSome
       ↔ keyword_match (post_text p) strong_keywords = true) ∧
    (∀ d, process_post m p = some d →
        d ∈ (search_reddit_for_recommendations (.ok posts) m).fst) := by
  constructor
  · by_cases hs : keyword_match (post_text p) strong_keywords = true
    · have hpost := keyword_match_mono (post_text p) hs
      simp [process_post, hc, hs, hpost]
    · simp only [Bool.not_eq_true] at hs
      simp only [process_post, hc, hs, List.isEmpty_nil, Bool.not_true,
        Bool.or_self, if_false, hs]
      constructor
      · intro h
        by_cases hpost : keyword_match (post_text p) post_keywords = true
        · simp [hpost] at h
        · simp only [Bool.not_eq_true] at hpost
          simp [hpost] at h
      · intro h
        simp at h
  · intro d hd
    rw [search_ok_eq]
    exact List.mem_filterMap.mpr ⟨p, hp, hd⟩

/-- C2 witness: a "recommend" post with no retained comments is kept. -/
theorem c2_witness :
    (process_post 3 ex_rec_post).isSome
      ↔ keyword_match (post_text ex_rec_post) strong_keywords = true :=
  (c2_zero_comment_retention 3 [ex_rec_post] ex_rec_post (by decide)
    (by decide)).1

/-- C8: for a mining candidate whose comment fetch returns `cs`, at most
`max_comments` comments are examined, and a comment is retained iff it is
among the examined ones and its case-folded body contains a comment-intent
lexicon term; the retained dictionaries are exactly the images of the
qualifying comments. -/
theorem c8_comment_filter (m : Nat) (p : RawPost) (cs : List RawComment)
    (h : p.commentsFetch = .ok cs) :
    (cs.take m).length ≤ m ∧
    (∀ c, c ∈ qualifying_comments cs m
       ↔ c ∈ cs.take m
         ∧ keyword_match (lowerStr c.body) comment_keywords = true) ∧
    post_comments p m = (qualifying_comments cs m).map comment_data ∧
    (post_comments p m).length ≤ m := by
  have hq : ∀ c, c ∈ qualifying_comments cs m
      ↔ c ∈ cs.take m
        ∧ keyword_match (lowerStr c.body) comment_keywords = true := by
    intro c
    exact List.mem_filter
  have hpost : post_comments p m = (qualifying_comments cs m).map comment_data := by
    simp [post_comments, h]
  refine ⟨List.length_take_le m cs, hq, hpost, ?_⟩
  rw [hpost, List.length_map]
  exact le_trans (List.length_filter_le _ _) (List.length_take_le m cs)

/-- C8 witness: with two fetched comments, the "try" comment qualifies. -/
theorem c8_witness :
    ex_comment_a ∈ qualifying_comments [ex_comment_a, ex_comment_b] 3
      ↔ ex_comment_a ∈ [ex_comment_a, ex_comment_b].take 3
        ∧ keyword_match (lowerStr ex_comment_a.body) comment_keywords = true :=
  ((c8_comment_filter 3 ex_commented_post [ex_comment_a, ex_comment_b]
    (by decide)).2.1) ex_comment_a

/-- C9: when the comment phase of one post raises, the exception is
swallowed, the post is treated as having zero retained comments, and the
remaining posts of the query are mined unchanged: the returned list splits
around the failing post's own (comment-free) contribution. -/
theorem c9_comment_failure_swallowed (m : Nat) (p : RawPost) (e : Unit)
    (pre rest : List RawPost) (h : p.commentsFetch = .error e) :
    post_comments p m = [] ∧
    (search_reddit_for_recommendations (.ok (pre ++ p :: rest)) m).fst
      = (search_reddit_for_recommendations (.ok pre) m).fst
        ++ (process_post m p).toList
        ++ (search_reddit_for_recommendations (.ok rest) m).fst := by
  constructor
  · simp [post_comments, h]
  · rw [search_ok_eq, search_ok_eq, search_ok_eq]
    simp [List.filterMap_append, List.filterMap_cons]
    cases process_post m p <;> simp

/-- C9 witness: a post whose comment fetch raises has zero retained
comments. -/
theorem c9_witness : post_comments ex_broken_post 3 = [] :=
  (c9_comment_failure_swallowed 3 ex_broken_post () [] [] (by decide)).1

/-! ### Helper lemmas about the query loops -/

/-- One loop iteration (`if results: all_reddit_data.extend(results)`)
extends the accumulator by exactly the query's results. -/
theorem extend_step_eq (oracle : Str → ServiceResult Str (List RawPost))
    (m : Nat) (acc : List PostData) (q : Str) :
    extend_step oracle m acc q = acc ++ query_results oracle m q := by
  unfold extend_step query_results
  cases h : (search_reddit_for_recommendations (oracle q) m).fst with
  | nil => simp [h]
  | cons d ds => simp [h]

/-- The query loops concatenate per-query results in seed order. -/
theorem foldl_extend_eq {α : Type}
    (oracle : Str → ServiceResult Str (List RawPost)) (m : Nat)
    (f : α → Str) (xs : List α) (acc : List PostData) :
    xs.foldl (fun acc x => extend_step oracle m acc (f x)) acc
      = acc ++ (xs.map fun x => query_results oracle m (f x)).flatten := by
  induction xs generalizing acc with
  | nil => simp
  | cons x xs ih =>
    simp only [List.foldl_cons, List.map_cons, List.flatten_cons]
    rw [extend_step_eq, ih, List.append_assoc]

/-- `all_reddit_data` in closed form: track-query results in seed top-track
order, then artist-query results in seed artist order. -/
theorem all_reddit_data_eq (oracle : Str → ServiceResult Str (List RawPost))
    (setEnum : List Str → List Str) (tracks_data : List Track)
    (m nt na : Nat) :
    (get_reddit_recommendations oracle setEnum tracks_data m nt na).all_reddit_data
      = ((top_tracks_of tracks_data nt).map
            fun t => query_results oracle m (track_query t)).flatten
        ++ ((all_artists_of setEnum tracks_data na).map
            fun a => query_results oracle m (artist_query a)).flatten := by
  simp only [get_reddit_recommendations]
  rw [foldl_extend_eq, foldl_extend_eq, List.nil_append]

/-- C5: `all_reddit_data` is exactly the concatenation of the per-query
mining results — all top-track query results first, in seed top-track
order, then all artist query results, in seed artist order — with no
reordering, insertion, or cross-query deduplication. -/
theorem c5_concatenation_order
    (oracle : Str → ServiceResult Str (List RawPost))
    (setEnum : List Str → List Str) (tracks_data : List Track)
    (m nt na : Nat) :
    (get_reddit_recommendations oracle setEnum tracks_data m nt na).all_reddit_data
      = ((top_tracks_of tracks_data nt).map
            fun t => query_results oracle m (track_query t)).flatten
        ++ ((all_artists_of setEnum tracks_data na).map
            fun a => query_results oracle m (artist_query a)).flatten :=
  all_reddit_data_eq oracle setEnum tracks_data m nt na

/-- C4: when the top-level search raises for one query, that query yields
the empty list with the error reported in the printed log, and the run's
`all_reddit_data` is unchanged from a run in which that query's search had
returned no posts — mining of every other query continues. -/
theorem c4_search_failure_isolated
    (oracle : Str → ServiceResult Str (List RawPost))
    (setEnum : List Str → List Str) (tracks_data : List Track)
    (m nt na : Nat) (q0 e : Str) (h : oracle q0 = .error e) :
    search_reddit_for_recommendations (oracle q0) m
      = ([], [search_error_message e]) ∧
    (get_reddit_recommendations oracle setEnum tracks_data m nt na).all_reddit_data
      = (get_reddit_recommendations
          (fun q => if q = q0 then .ok [] else oracle q)
          setEnum tracks_data m nt na).all_reddit_data := by
  have hq : ∀ q, query_results oracle m q
      = query_results (fun q => if q = q0 then .ok [] else oracle q) m q := by
    intro q
    by_cases hqq : q = q0
    · have hL : query_results oracle m q = [] := by
        simp [query_results, hqq, h, search_reddit_for_recommendations]
      have hR : query_results
          (fun q' => if q' = q0 then .ok [] else oracle q') m q = [] := by
        simp [query_results, hqq, search_reddit_for_recommendations]
      rw [hL, hR]
    · simp only [query_results, if_neg hqq]
  constructor
  · simp [search_reddit_for_recommendations, h]
  · rw [all_reddit_data_eq, all_reddit_data_eq]
    have h1 : (fun t => query_results oracle m (track_query t))
        = fun t => query_results
            (fun q => if q = q0 then .ok [] else oracle q) m (track_query t) :=
      funext fun t => hq (track_query t)
    have h2 : (fun a => query_results oracle m (artist_query a))
        = fun a => query_results
            (fun q => if q = q0 then .ok [] else oracle q) m (artist_query a) :=
      funext fun a => hq (artist_query a)
    rw [h1, h2]

/-- C4 witness: under `ex_oracle` the failing artist query returns the
empty list and the printed error line. -/
theorem c4_witness :
    search_reddit_for_recommendations
        (ex_oracle (artist_query "Artist X".toList)) 3
      = ([], [search_error_message "boom".toList]) :=
  (c4_search_failure_isolated ex_oracle (fun l => l.dedup) ex_playlist 3 5 3
    (artist_query "Artist X".toList) "boom".toList (by decide)).1

/-! ### Helper lemmas about the stable descending sort -/

/-- Insertion yields a permutation of consing. -/
theorem insert_desc_perm (x : Track) (l : List Track) :
    List.Perm (insert_desc x l) (x :: l) := by
  induction l with
  | nil => exact List.Perm.refl _
  | cons y ys ih =>
    unfold insert_desc
    by_cases h : x.popularity ≥ y.popularity
    · rw [if_pos h]
    · rw [if_neg h]
      exact (ih.cons y).trans (List.Perm.swap x y ys)

/-- The sort permutes its input. -/
theorem sorted_desc_perm (l : List Track) :
    List.Perm (sorted_desc_by_popularity l) l := by
  induction l with
  | nil => exact List.Perm.refl _
  | cons x xs ih => exact (insert_desc_perm x _).trans (ih.cons x)

/-- Insertion preserves descending-by-popularity ordering. -/
theorem pairwise_insert_desc (x : Track) (l : List Track)
    (h : l.Pairwise fun a b => b.popularity ≤ a.popularity) :
    (insert_desc x l).Pairwise fun a b => b.popularity ≤ a.popularity := by
  induction l with
  | nil => simp [insert_desc]
  | cons y ys ih =>
    rcases List.pairwise_cons.mp h with ⟨hy, hys⟩
    unfold insert_desc
    by_cases hxy : x.popularity ≥ y.popularity
    · rw [if_pos hxy]
      refine List.pairwise_cons.mpr ⟨?_, h⟩
      intro b hb
      rcases List.mem_cons.mp hb with rfl | hb'
      · exact hxy
      · exact le_trans (hy b hb') hxy
    · rw [if_neg hxy]
      refine List.pairwise_cons.mpr ⟨?_, ih hys⟩
      intro b hb
      rcases List.mem_cons.mp ((insert_desc_perm x ys).mem_iff.mp hb)
        with rfl | hb'
      · exact le_of_not_le hxy
      · exact hy b hb'

/-- The sort is descending by popularity. -/
theorem sorted_desc_pairwise (l : List Track) :
    (sorted_desc_by_popularity l).Pairwise
      fun a b => b.popularity ≤ a.popularity := by
  induction l with
  | nil => simp [sorted_desc_by_popularity]
  | cons x xs ih => exact pairwise_insert_desc x _ ih

/-- Insertion does not disturb the subsequence at any fixed popularity:
the inserted element lands right at the front of its popularity class. -/
theorem filter_insert_desc (p : Int) (x : Track) (l : List Track) :
    (insert_desc x l).filter (fun t => decide (t.popularity = p))
      = (x :: l).filter (fun t => decide (t.popularity = p)) := by
  induction l with
  | nil => rfl
  | cons y ys ih =>
    unfold insert_desc
    by_cases hxy : x.popularity ≥ y.popularity
    · rw [if_pos hxy]
    · rw [if_neg hxy]
      by_cases hy : y.popularity = p
      · have hx : ¬x.popularity = p := fun hx =>
          hxy (le_of_eq (hy.trans hx.symm))
        simp [List.filter_cons, hx, hy, ih]
      · simp [List.filter_cons, hy, ih]

/-- The sort preserves the relative order of equal-popularity tracks
(stability): for each popularity value the filtered subsequence of the
output equals that of the input. -/
theorem filter_sorted_desc (p : Int) (l : List Track) :
    (sorted_desc_by_popularity l).filter (fun t => decide (t.popularity = p))
      = l.filter (fun t => decide (t.popularity = p)) := by
  induction l with
  | nil => rfl
  | cons x xs ih =>
    show (insert_desc x (sorted_desc_by_popularity xs)).filter _ = _
    rw [filter_insert_desc]
    by_cases hx : x.popularity = p
    · simp [List.filter_cons, hx, ih]
    · simp [List.filter_cons, hx, ih]

/-- C1: the top-track seed list returned by `get_reddit_recommendations` is
the input track list sorted by popularity in descending order — stable on
ties, witnessed by unchanged popularity-class subsequences — truncated to
at most `num_top_tracks` elements.  (`num_top_tracks : Nat` models the
non-negative case of the claim.) -/
theorem c1_top_tracks_stable_sorted
    (oracle : Str → ServiceResult Str (List RawPost))
    (setEnum : List Str → List Str) (tracks_data : List Track)
    (m n na : Nat) :
    (get_reddit_recommendations oracle setEnum tracks_data m n na).top_tracks
        = (sorted_desc_by_popularity tracks_data).take n ∧
    List.Perm (sorted_desc_by_popularity tracks_data) tracks_data ∧
    (sorted_desc_by_popularity tracks_data).Pairwise
        (fun a b => b.popularity ≤ a.popularity) ∧
    (∀ p : Int,
        (sorted_desc_by_popularity tracks_data).filter
            (fun t => decide (t.popularity = p))
          = tracks_data.filter (fun t => decide (t.popularity = p))) ∧
    (top_tracks_of tracks_data n).length ≤ n := by
  refine ⟨rfl, sorted_desc_perm tracks_data, sorted_desc_pairwise tracks_data,
    fun p => filter_sorted_desc p tracks_data, ?_⟩
  exact List.length_take_le n _

/-- C6 counterexample: with a one-track playlist and `num_top_tracks = 5`
the seed list equals the whole playlist, so it contains every track of the
playlist and is not a strict subset. -/
theorem c6_counterexample :
    top_tracks_of ex_playlist 5 = ex_playlist ∧
    ∀ t ∈ ex_playlist, t ∈ top_tracks_of ex_playlist 5 := by
  refine ⟨by decide, ?_⟩
  intro t ht
  rw [(by decide : top_tracks_of ex_playlist 5 = ex_playlist)]
  exact ht

/-- C6 amended: the top-track seed list is always contained in the
playlist's tracks (a sub-permutation), and it is strictly smaller than the
playlist — hence a strict subset — exactly when `num_top_tracks` is smaller
than the number of playlist tracks; for larger `num_top_tracks` it contains
every track. -/
theorem c6_amended_subperm (tracks_data : List Track) (n : Nat) :
    List.Subperm (top_tracks_of tracks_data n) tracks_data ∧
    ((top_tracks_of tracks_data n).length < tracks_data.length
       ↔ n < tracks_data.length) := by
  constructor
  · exact ((List.take_sublist n _).subperm).trans
      (sorted_desc_perm tracks_data).subperm
  · rw [top_tracks_of, List.length_take,
      (sorted_desc_perm tracks_data).length_eq]
    omega

/-- C7: for any `set` iteration order, the `all_artists` list has no
duplicates, every element is an artist name of some input track, its length
is at most `num_top_artists`, and when `num_top_artists` is at least the
number of distinct artist names it contains exactly the distinct artist
names across all tracks. -/
theorem c7_all_artists_dedup (setEnum : List Str → List Str)
    (tracks_data : List Track) (n : Nat)
    (h : models_pyset setEnum (all_artist_occurrences tracks_data)) :
    (all_artists_of setEnum tracks_data n).Nodup ∧
    (∀ a ∈ all_artists_of setEnum tracks_data n,
        ∃ t ∈ tracks_data, a ∈ t.artists) ∧
    (all_artists_of setEnum tracks_data n).length ≤ n ∧
    ((all_artist_occurrences tracks_data).dedup.length ≤ n →
      ∀ a, a ∈ all_artists_of setEnum tracks_data n
        ↔ ∃ t ∈ tracks_data, a ∈ t.artists) := by
  obtain ⟨hnd, hmem⟩ := h
  have hocc : ∀ a, a ∈ all_artist_occurrences tracks_data
      ↔ ∃ t ∈ tracks_data, a ∈ t.artists := by
    intro a
    simp [all_artist_occurrences, List.mem_flatten, List.mem_map]
  refine ⟨?_, ?_, ?_, ?_⟩
  · exact List.Nodup.sublist (List.take_sublist n _) hnd
  · intro a ha
    exact (hocc a).mp ((hmem a).mp (List.mem_of_mem_take ha))
  · exact List.length_take_le n _
  · intro hlen a
    have hperm : List.Perm (setEnum (all_artist_occurrences tracks_data))
        (all_artist_occurrences tracks_data).dedup :=
      (List.perm_ext_iff_of_nodup hnd (List.nodup_dedup _)).mpr
        (fun b => (hmem b).trans List.mem_dedup.symm)
    have hlen' : (setEnum (all_artist_occurrences tracks_data)).length ≤ n := by
      rw [hperm.length_eq]
      exact hlen
    rw [all_artists_of, List.take_of_length_le hlen']
    exact (hmem a).trans (hocc a)

/-- C7 witness: with first-occurrence enumeration of the set, the artist
list of the example playlist is duplicate-free. -/
theorem c7_witness :
    (all_artists_of (fun l => l.dedup) ex_playlist 3).Nodup :=
  (c7_all_artists_dedup (fun l => l.dedup) ex_playlist 3
    ⟨List.nodup_dedup _, fun _ => List.mem_dedup⟩).1
